import Mathlib

/-!
# Verification of the portfolio-tracking client's data layer

Shallow embedding of the repository's session manager (`sessionManager.ts`),
portfolio data service (`portfolioService.ts`), and the real-time
subscription hook (`usePortfolioData.ts`).

Conventions of the embedding:
* JavaScript numbers used for money-like quantities (weights, returns) are
  modelled as rationals; counters and sizes as naturals; millisecond
  timestamps as integers.
* Browser-local storage for the last-location entry is modelled as an
  explicit `Option SessionState` value threaded through the operations.
* Backend (PostgREST) responses are modelled as `Except PgError`-valued
  inputs to each operation; `null` data on a successful response is an
  `Option` payload.
-/

namespace StockPicker

/-! ## Session manager (`sessionManager.ts`) -/

/-- The persisted last-location entry: `{ lastLocation, timestamp }`
(interface `SessionState`). `lastLocation` is `string | null` in the
source, hence an `Option`. -/
structure SessionState where
  lastLocation : Option String
  timestamp : Int
deriving DecidableEq, Repr

/-- `SESSION_TIMEOUT = 24 * 60 * 60 * 1000` milliseconds (24 hours). -/
def SESSION_TIMEOUT : Int := 24 * 60 * 60 * 1000

/-- `SessionManager.storeLocation(path)`: skips `/auth/callback` and `/`
("Don't store auth callback or root paths"); for any other path it
overwrites the stored entry with `{ lastLocation: path, timestamp: Date.now() }`.
The stored slot is passed and returned explicitly. -/
def storeLocation (path : String) (now : Int) (stored : Option SessionState) :
    Option SessionState :=
  if path = "/auth/callback" ∨ path = "/" then stored
  else some { lastLocation := some path, timestamp := now }

/-- `SessionManager.getStoredLocation()`: returns `null` when nothing is
stored; clears the entry and returns `null` when
`Date.now() - timestamp > SESSION_TIMEOUT`; otherwise returns the stored
`lastLocation`. Result is the pair (returned value, storage afterwards). -/
def getStoredLocation (now : Int) (stored : Option SessionState) :
    Option String × Option SessionState :=
  match stored with
  | none => (none, none)
  | some s =>
    if now - s.timestamp > SESSION_TIMEOUT then (none, none)
    else (s.lastLocation, some s)

/-- The `excludedPaths` list of `SessionManager.shouldStorePath`. -/
def excludedPaths : List String := ["/auth/callback", "/", "/login", "/signup"]

/-- `SessionManager.shouldStorePath(path)`:
`!excludedPaths.includes(path) && !path.startsWith('/auth/')`. -/
def shouldStorePath (path : String) : Bool :=
  !(excludedPaths.contains path) && !(path.startsWith "/auth/")

/-! ## Error shape and the retry gate (`portfolioService.ts`) -/

/-- A backend error; only its message string is inspected by the client. -/
structure PgError where
  message : String
deriving DecidableEq, Repr

/-- `pat` occurs as a contiguous run inside `s` (chars). -/
def charsLeadWith : List Char → List Char → Bool
  | [], _ => true
  | _ :: _, [] => false
  | a :: as, b :: bs => a == b && charsLeadWith as bs

/-- Substring containment, the semantics of JS `String.prototype.includes`. -/
def charsContain (s pat : List Char) : Bool :=
  match s with
  | [] => charsLeadWith pat []
  | _ :: tail => charsLeadWith pat s || charsContain tail pat

/-- `s.includes(pat)` on strings. -/
def containsSubstring (s pat : String) : Bool :=
  charsContain s.data pat.data

/-- The retry gate of `getPortfolioByQuarter`:
`error.message.includes('connection') || error.message.includes('network')`. -/
def isRetryableError (e : PgError) : Bool :=
  containsSubstring e.message "connection" || containsSubstring e.message "network"

/-- `maxRetries = 3`. -/
def maxRetries : Nat := 3

/-- `retryDelay = 1000` (milliseconds). -/
def retryDelay : Nat := 1000

/-- A portfolio holding row (`PortfolioConstituent`). The two ISO timestamp
strings are modelled as integers ordered the way the column orders. -/
structure Row where
  id : Int
  quarter : String
  stock_name : String
  stock_code : String
  company_logo_url : Option String
  weight : ℚ
  quarterly_returns : ℚ
  created_at : Int
  updated_at : Int
deriving DecidableEq, Repr

/-- Outcome of running `getPortfolioByQuarter` against a fixed backend: the
list of backoff delays that were awaited (one per retry, in order) and the
final result (`.ok` data or the thrown error). -/
structure FetchTrace where
  delays : List Nat
  outcome : Except PgError (List Row)
deriving Repr

/-- The body of `getPortfolioByQuarter`, as a function of the backend's
response to each attempt (attempt `n` is the `n`-th call of the recursion)
and of the current `connectionRetries` counter. On an error that passes the
gate while `connectionRetries < maxRetries`, the counter is incremented, a
delay of `retryDelay * connectionRetries` (post-increment value) is awaited
and the call recurses; otherwise the error is thrown. `null` data on
success becomes `[]` (`return data || []`). -/
def fetchWithRetry (backend : Nat → Except PgError (Option (List Row)))
    (attempt : Nat) (retries : Nat) : FetchTrace :=
  match backend attempt with
  | .ok d => { delays := [], outcome := .ok (d.getD []) }
  | .error e =>
    if h : retries < maxRetries ∧ isRetryableError e = true then
      let t := fetchWithRetry backend (attempt + 1) (retries + 1)
      { delays := retryDelay * (retries + 1) :: t.delays, outcome := t.outcome }
    else
      { delays := [], outcome := .error e }
termination_by maxRetries - retries
decreasing_by omega

/-- A full run of `getPortfolioByQuarter` starting from `connectionRetries = r0`
(the constructor initialises the counter to `0`). -/
def getPortfolioByQuarterRun (backend : Nat → Except PgError (Option (List Row)))
    (r0 : Nat) : FetchTrace :=
  fetchWithRetry backend 0 r0

/-! ## Simple data operations (`portfolioService.ts`)

Each operation is a function of the backend's response. The source wraps
every call in catch-log-rethrow; the log has no effect on the value, so the
embedding is the error-propagation structure itself. -/

/-- `addConstituent`: `.insert([constituent]).select().single()`; on error
rethrow, else return the row. -/
def addConstituent (res : Except PgError Row) : Except PgError Row :=
  match res with
  | .error e => .error e
  | .ok row => .ok row

/-- `updateConstituent`: `.update(updates).eq('id', id).select().single()`;
on error rethrow, else return the row. -/
def updateConstituent (res : Except PgError Row) : Except PgError Row :=
  match res with
  | .error e => .error e
  | .ok row => .ok row

/-- `deleteConstituent`: `.delete().eq('id', id)`; on error rethrow, else
return nothing. -/
def deleteConstituent (res : Except PgError Unit) : Except PgError Unit :=
  match res with
  | .error e => .error e
  | .ok u => .ok u

/-- `bulkInsertConstituents`: on error rethrow, else `return data || []`. -/
def bulkInsertConstituents (res : Except PgError (Option (List Row))) :
    Except PgError (List Row) :=
  match res with
  | .error e => .error e
  | .ok d => .ok (d.getD [])

/-- `searchConstituents`: on error rethrow, else `return data || []`. -/
def searchConstituents (res : Except PgError (Option (List Row))) :
    Except PgError (List Row) :=
  match res with
  | .error e => .error e
  | .ok d => .ok (d.getD [])

/-- `getLatestPortfolio`: first query `select('quarter').order('created_at',
desc).limit(1)` (result: a list of quarter labels, or an error); if it
errors, rethrow; if it is empty, return `[]`; otherwise fetch that quarter
via `getPortfolioByQuarter`, whose outcome (data or thrown error)
propagates through the catch-rethrow. -/
def getLatestPortfolio (quarterRes : Except PgError (Option (List String)))
    (fetchQuarter : String → Except PgError (List Row)) :
    Except PgError (List Row) :=
  match quarterRes with
  | .error e => .error e
  | .ok d =>
    match d.getD [] with
    | [] => .ok []
    | q :: _ => fetchQuarter q

/-! ## Quarter aggregation (`getQuartersSummary`) -/

/-- The value type of the grouping `Map`: accumulated count, summed
returns, summed weights for one quarter. -/
structure QuarterAgg where
  total_stocks : Nat
  total_returns : ℚ
  total_weight : ℚ
deriving DecidableEq, Repr

/-- One element of the returned summary array (`QuarterSummary`). -/
structure QuarterSummary where
  quarter : String
  total_stocks : Nat
  avg_returns : ℚ
  total_weight : ℚ
deriving DecidableEq, Repr

/-- JS `Map.get`, on the insertion-ordered association list. -/
def mapGet (m : List (String × QuarterAgg)) (k : String) : Option QuarterAgg :=
  match m with
  | [] => none
  | (k₁, v₁) :: rest => if k₁ = k then some v₁ else mapGet rest k

/-- JS `Map.set`: updates an existing key in place (keeping its insertion
position) or appends a new key at the end. -/
def mapSet (m : List (String × QuarterAgg)) (k : String) (v : QuarterAgg) :
    List (String × QuarterAgg) :=
  match m with
  | [] => [(k, v)]
  | (k₁, v₁) :: rest =>
    if k₁ = k then (k, v) :: rest else (k₁, v₁) :: mapSet rest k v

/-- The body of the `data.forEach` loop: read the existing accumulator for
the row's quarter (defaulting to zeros) and write back the incremented
one. -/
def quarterStep (m : List (String × QuarterAgg)) (item : Row) :
    List (String × QuarterAgg) :=
  let existing := (mapGet m item.quarter).getD ⟨0, 0, 0⟩
  mapSet m item.quarter
    { total_stocks := existing.total_stocks + 1
      total_returns := existing.total_returns + item.quarterly_returns
      total_weight := existing.total_weight + item.weight }

/-- The grouping `quarterMap` after the `forEach` over `data`. -/
def buildQuarterMap (data : List Row) : List (String × QuarterAgg) :=
  data.foldl quarterStep []

/-- `Array.from(quarterMap.entries()).map(...)`: one summary per map entry,
with `avg_returns = total_returns / total_stocks`. -/
def summariesOfMap (m : List (String × QuarterAgg)) : List QuarterSummary :=
  m.map fun p =>
    { quarter := p.1
      total_stocks := p.2.total_stocks
      avg_returns := p.2.total_returns / (p.2.total_stocks : ℚ)
      total_weight := p.2.total_weight }

/-- The successful-path body of `getQuartersSummary`: the early return `[]`
for missing/empty data, else the grouping reduction. -/
def quartersSummaryOfData (data : List Row) : List QuarterSummary :=
  if data = [] then [] else summariesOfMap (buildQuarterMap data)

/-- `getQuartersSummary` as a function of the backend response: on error
rethrow, else aggregate `data || []`. -/
def getQuartersSummary (res : Except PgError (Option (List Row))) :
    Except PgError (List QuarterSummary) :=
  match res with
  | .error e => .error e
  | .ok d => .ok (quartersSummaryOfData (d.getD []))

/-! ## Pure query layer (remote table semantics)

`getPortfolioByQuarter` runs `.eq('quarter', q).order('weight', desc)`;
`getLatestPortfolio` first runs `.order('created_at', desc).limit(1)`. The
table is modelled as a list of rows and descending ordering as an insertion
sort. -/

/-- Insert a row into a list sorted descending by `key`. -/
def insertDescBy (key : Row → Int) (r : Row) : List Row → List Row
  | [] => [r]
  | x :: xs => if key x < key r then r :: x :: xs else x :: insertDescBy key r xs

/-- Sort a list of rows descending by `key`. -/
def sortDescBy (key : Row → Int) (l : List Row) : List Row :=
  l.foldr (insertDescBy key) []

/-- Insert a row into a list sorted descending by weight. -/
def insertDescByWeight (r : Row) : List Row → List Row
  | [] => [r]
  | x :: xs => if x.weight < r.weight then r :: x :: xs else x :: insertDescByWeight r xs

/-- Sort a list of rows descending by weight (`order('weight', desc)`). -/
def sortDescByWeight (l : List Row) : List Row :=
  l.foldr insertDescByWeight []

/-- The rows `select('*').eq('quarter', q).order('weight', desc)` returns
on table `db`. -/
def queryByQuarter (db : List Row) (q : String) : List Row :=
  sortDescByWeight (db.filter fun r => decide (r.quarter = q))

/-- The quarter label produced by `.order('created_at', desc).limit(1)`:
the quarter of the most recently created row, if any. -/
def latestQuarter (db : List Row) : Option String :=
  match sortDescBy (·.created_at) db with
  | [] => none
  | r :: _ => some r.quarter

/-- `getLatestPortfolio` against table `db`, success path. -/
def getLatestPortfolioDb (db : List Row) : List Row :=
  match latestQuarter db with
  | none => []
  | some q => queryByQuarter db q

/-- The real-time handler's refetch: `getPortfolioByQuarter(quarter)` when a
quarter was passed to `subscribeToUpdates`, else `getLatestPortfolio()`. -/
def realtimeRefetch (db : List Row) (quarter : Option String) : List Row :=
  match quarter with
  | some q => queryByQuarter db q
  | none => getLatestPortfolioDb db

/-- The subscriber registered by `usePortfolioData`:
`setPortfolioData(updatedData)` replaces the hook's list state with the
fetched list. -/
def applySubscriberUpdate (_prev updated : List Row) : List Row :=
  updated

/-! ## Specification-side measuring functions

Vocabulary used to state the aggregation claims: the input rows carrying a
given quarter label, and the sums of their returns and weights. -/

/-- The input rows whose quarter label is `q`. -/
def rowsOfQuarter (rows : List Row) (q : String) : List Row :=
  rows.filter fun r => decide (r.quarter = q)

/-- Sum of the quarterly returns of a list of rows. -/
def sumReturns (rows : List Row) : ℚ :=
  (rows.map Row.quarterly_returns).sum

/-- Sum of the weights of a list of rows. -/
def sumWeights (rows : List Row) : ℚ :=
  (rows.map Row.weight).sum

/-- A concrete holding row, for witnesses. -/
def sampleRow : Row :=
  { id := 1, quarter := "Q1 2024", stock_name := "Alpha", stock_code := "ALP",
    company_logo_url := none, weight := 10, quarterly_returns := 5,
    created_at := 0, updated_at := 0 }

/-! ## Real-time channel lifecycle (`subscribeToUpdates`)

The singleton's mutable fields are `realtimeChannel` (nullable) and
`subscribers` (a JS `Set` of callbacks, modelled by an insertion-ordered
duplicate-free list of callback identities). `openChannels` is a ghost
field recording every channel created by `supabase.channel(...)` and not
yet `unsubscribe()`d, to express "at most one channel exists". -/

structure ChannelState where
  realtimeChannel : Option Nat
  subscribers : List Nat
  nextChannelId : Nat
  openChannels : List Nat
deriving DecidableEq, Repr

/-- JS `Set.add`: no-op on a present element, else append. -/
def setAdd (s : List Nat) (x : Nat) : List Nat :=
  if x ∈ s then s else s ++ [x]

/-- JS `Set.delete`: remove the element if present. -/
def setDelete (s : List Nat) (x : Nat) : List Nat :=
  s.filter fun y => decide (y ≠ x)

/-- The three events that touch the channel state: a `subscribeToUpdates`
call, a call of a returned unsubscribe closure (for the callback it closed
over), and the `CHANNEL_ERROR` reconnect handler firing. -/
inductive ChannelAction where
  | subscribe (cb : Nat)
  | unsubscribe (cb : Nat)
  | channelError
deriving DecidableEq, Repr

/-- One event against the singleton state.

* `subscribe cb`: `this.subscribers.add(callback)`, then create a channel
  only `if (!this.realtimeChannel)`.
* `unsubscribe cb`: `this.subscribers.delete(callback)`; then, `if
  (this.subscribers.size === 0 && this.realtimeChannel)`, unsubscribe the
  channel and null the field.
* `channelError`: `this.realtimeChannel?.unsubscribe(); this.realtimeChannel = null`. -/
def channelStep (st : ChannelState) (a : ChannelAction) : ChannelState :=
  match a with
  | .subscribe cb =>
    let st₁ := { st with subscribers := setAdd st.subscribers cb }
    match st₁.realtimeChannel with
    | some _ => st₁
    | none =>
      { st₁ with
        realtimeChannel := some st₁.nextChannelId
        openChannels := st₁.openChannels ++ [st₁.nextChannelId]
        nextChannelId := st₁.nextChannelId + 1 }
  | .unsubscribe cb =>
    let subs := setDelete st.subscribers cb
    if subs = [] then
      match st.realtimeChannel with
      | some c =>
        { st with
          subscribers := subs
          realtimeChannel := none
          openChannels := st.openChannels.filter fun d => decide (d ≠ c) }
      | none => { st with subscribers := subs }
    else
      { st with subscribers := subs }
  | .channelError =>
    match st.realtimeChannel with
    | some c =>
      { st with
        realtimeChannel := none
        openChannels := st.openChannels.filter fun d => decide (d ≠ c) }
    | none => st

/-- The singleton's initial state: no channel, empty subscriber set. -/
def channelInit : ChannelState :=
  { realtimeChannel := none, subscribers := [], nextChannelId := 0, openChannels := [] }

/-- Run a sequence of events from the initial state. -/
def runChannel (acts : List ChannelAction) : ChannelState :=
  acts.foldl channelStep channelInit

/-- The claimed invariant: at most one live channel — none when the field is
null, exactly the field's channel otherwise — and the field is non-null
only while the subscriber set is non-empty. -/
def channelInvariant (st : ChannelState) : Prop :=
  match st.realtimeChannel with
  | some c => st.openChannels = [c] ∧ st.subscribers ≠ []
  | none => st.openChannels = []

instance (st : ChannelState) : Decidable (channelInvariant st) := by
  unfold channelInvariant
  cases st.realtimeChannel <;> infer_instance

/-! ## Theorems -/

/-- C4 (counterexample): `/login` is on the spec's denylist, yet
`storeLocation "/login"` overwrites the stored entry — the claim that
`storeLocation` leaves the stored location unchanged for every denylist
path is false. -/
theorem c4_counterexample :
    "/login" ∈ excludedPaths ∧
    storeLocation "/login" 7 none =
      some { lastLocation := some "/login", timestamp := 7 } := by
  decide

/-- C4 (amended): `storeLocation` leaves the stored entry unchanged only
for `/` and `/auth/callback`; it stores `/login` and `/signup` like any
other path. The full four-path denylist is enforced only by
`shouldStorePath`, which returns `false` on each excluded path but is
never consulted by `storeLocation`. -/
theorem c4_storeLocation_denylist (path : String) (now : Int)
    (st : Option SessionState) :
    ((path = "/auth/callback" ∨ path = "/") → storeLocation path now st = st) ∧
    ((path = "/login" ∨ path = "/signup") →
      storeLocation path now st =
        some { lastLocation := some path, timestamp := now }) ∧
    (∀ p ∈ excludedPaths, shouldStorePath p = false) := by
  refine ⟨fun h => ?_, fun h => ?_, by decide⟩
  · simp [storeLocation, h]
  · rcases h with h | h <;> subst h <;> simp [storeLocation]

/-- Witness for `c4_storeLocation_denylist` at concrete inputs. -/
theorem c4_storeLocation_denylist_witness :
    storeLocation "/" 3 (some { lastLocation := some "/momentum", timestamp := 0 }) =
      some { lastLocation := some "/momentum", timestamp := 0 } ∧
    storeLocation "/login" 3 none =
      some { lastLocation := some "/login", timestamp := 3 } :=
  ⟨(c4_storeLocation_denylist "/" 3
      (some { lastLocation := some "/momentum", timestamp := 0 })).1 (Or.inr rfl),
   (c4_storeLocation_denylist "/login" 3 none).2.1 (Or.inl rfl)⟩

/-- C5 (counterexample): with a stored timestamp of `0`, reading at time
`86400000` — where `now - t` exactly reaches the 24-hour threshold — still
returns the stored path and keeps the entry, because the code expires only
on strict excess (`>`); the claim that it returns `null` once the
difference reaches the threshold is false. -/
theorem c5_counterexample :
    (86400000 : Int) - 0 = SESSION_TIMEOUT ∧
    getStoredLocation 86400000 (some { lastLocation := some "/momentum", timestamp := 0 }) =
      (some "/momentum", some { lastLocation := some "/momentum", timestamp := 0 }) := by
  decide

/-- C5 (amended): `getStoredLocation` returns the stored path (keeping the
entry) whenever `now - t ≤ SESSION_TIMEOUT`, and returns `null` (clearing
the entry) whenever `now - t > SESSION_TIMEOUT`: expiry happens strictly
after the 24-hour threshold is exceeded, not on reaching it. -/
theorem c5_getStoredLocation_expiry (now : Int) (s : SessionState) :
    (now - s.timestamp ≤ SESSION_TIMEOUT →
      getStoredLocation now (some s) = (s.lastLocation, some s)) ∧
    (SESSION_TIMEOUT < now - s.timestamp →
      getStoredLocation now (some s) = (none, none)) := by
  constructor
  · intro h
    simp only [getStoredLocation, gt_iff_lt, if_neg (not_lt.2 h)]
  · intro h
    simp only [getStoredLocation, gt_iff_lt, if_pos h]

/-- Witness for `c5_getStoredLocation_expiry` at concrete inputs on both
sides of the threshold. -/
theorem c5_getStoredLocation_expiry_witness :
    getStoredLocation 100 (some { lastLocation := some "/momentum", timestamp := 0 }) =
      (some "/momentum", some { lastLocation := some "/momentum", timestamp := 0 }) ∧
    getStoredLocation 86400001 (some { lastLocation := some "/momentum", timestamp := 0 }) =
      (none, none) :=
  ⟨(c5_getStoredLocation_expiry 100 { lastLocation := some "/momentum", timestamp := 0 }).1
      (by decide),
   (c5_getStoredLocation_expiry 86400001 { lastLocation := some "/momentum", timestamp := 0 }).2
      (by decide)⟩

/-- Unfolding `fetchWithRetry` on a successful attempt. -/
theorem fetchWithRetry_of_ok (backend : Nat → Except PgError (Option (List Row)))
    (a r : Nat) (d : Option (List Row)) (h : backend a = Except.ok d) :
    fetchWithRetry backend a r = { delays := [], outcome := Except.ok (d.getD []) } := by
  rw [fetchWithRetry, h]

/-- Unfolding `fetchWithRetry` on a failed attempt that passes the gate. -/
theorem fetchWithRetry_of_error_retry (backend : Nat → Except PgError (Option (List Row)))
    (a r : Nat) (e : PgError) (h : backend a = Except.error e)
    (hr : r < maxRetries) (hg : isRetryableError e = true) :
    fetchWithRetry backend a r =
      { delays := retryDelay * (r + 1) :: (fetchWithRetry backend (a + 1) (r + 1)).delays
        outcome := (fetchWithRetry backend (a + 1) (r + 1)).outcome } := by
  rw [fetchWithRetry, h]
  dsimp only
  rw [dif_pos ⟨hr, hg⟩]

/-- Unfolding `fetchWithRetry` on a failed attempt that is thrown. -/
theorem fetchWithRetry_of_error_throw (backend : Nat → Except PgError (Option (List Row)))
    (a r : Nat) (e : PgError) (h : backend a = Except.error e)
    (hstop : ¬(r < maxRetries ∧ isRetryableError e = true)) :
    fetchWithRetry backend a r = { delays := [], outcome := Except.error e } := by
  rw [fetchWithRetry, h]
  dsimp only
  rw [dif_neg hstop]

/-- The loop performs at most `maxRetries - r` further retries. -/
theorem fetchWithRetry_delays_length_le (backend : Nat → Except PgError (Option (List Row))) :
    ∀ fuel a r, maxRetries - r ≤ fuel →
      (fetchWithRetry backend a r).delays.length ≤ maxRetries - r := by
  intro fuel
  induction fuel with
  | zero =>
    intro a r hr
    cases hb : backend a with
    | ok d => rw [fetchWithRetry_of_ok backend a r d hb]; simp
    | error e =>
      rw [fetchWithRetry_of_error_throw backend a r e hb (fun hc => by omega)]
      simp
  | succ n ih =>
    intro a r hr
    cases hb : backend a with
    | ok d => simp [fetchWithRetry_of_ok backend a r d hb]
    | error e =>
      by_cases hc : r < maxRetries ∧ isRetryableError e = true
      · rw [fetchWithRetry_of_error_retry backend a r e hb hc.1 hc.2]
        have hlen := ih (a + 1) (r + 1) (by omega)
        have hlt := hc.1
        simp only [List.length_cons]
        omega
      · rw [fetchWithRetry_of_error_throw backend a r e hb hc]
        simp

/-- When every attempt fails, the loop's outcome is an error. -/
theorem fetchWithRetry_all_error (backend : Nat → Except PgError (Option (List Row)))
    (hfail : ∀ n, ∃ e, backend n = Except.error e) :
    ∀ fuel a r, maxRetries - r ≤ fuel →
      ∃ e, (fetchWithRetry backend a r).outcome = Except.error e := by
  intro fuel
  induction fuel with
  | zero =>
    intro a r hr
    obtain ⟨e, he⟩ := hfail a
    rw [fetchWithRetry_of_error_throw backend a r e he (fun hc => by omega)]
    exact ⟨e, rfl⟩
  | succ n ih =>
    intro a r hr
    obtain ⟨e, he⟩ := hfail a
    by_cases hc : r < maxRetries ∧ isRetryableError e = true
    · rw [fetchWithRetry_of_error_retry backend a r e he hc.1 hc.2]
      exact ih (a + 1) (r + 1) (by omega)
    · rw [fetchWithRetry_of_error_throw backend a r e he hc]
      exact ⟨e, rfl⟩

/-- C2: against a backend that fails every attempt with a retryable error,
a `getPortfolioByQuarter` call starting from the initial
`connectionRetries = 0` performs exactly 3 retries, awaiting `k * 1000` ms
before the `k`-th retry, then throws the final (4th-attempt) error; and
from any starting counter the number of retries is at most `maxRetries = 3`. -/
theorem c2_retry_linear_backoff (backend : Nat → Except PgError (Option (List Row)))
    (hfail : ∀ n, ∃ e, backend n = Except.error e ∧ isRetryableError e = true) :
    (getPortfolioByQuarterRun backend 0).delays = [1000, 2000, 3000] ∧
    (∃ e, backend 3 = Except.error e ∧
      (getPortfolioByQuarterRun backend 0).outcome = Except.error e) ∧
    (∀ r0, (getPortfolioByQuarterRun backend r0).delays.length ≤ maxRetries) := by
  obtain ⟨e0, he0, hr0⟩ := hfail 0
  obtain ⟨e1, he1, hr1⟩ := hfail 1
  obtain ⟨e2, he2, hr2⟩ := hfail 2
  obtain ⟨e3, he3, hr3⟩ := hfail 3
  have h3 : fetchWithRetry backend 3 3 = { delays := [], outcome := Except.error e3 } :=
    fetchWithRetry_of_error_throw backend 3 3 e3 he3 (by simp [maxRetries])
  have h2 : fetchWithRetry backend 2 2 = { delays := [3000], outcome := Except.error e3 } := by
    rw [fetchWithRetry_of_error_retry backend 2 2 e2 he2 (by norm_num [maxRetries]) hr2, h3]
    norm_num [retryDelay]
  have h1 : fetchWithRetry backend 1 1 =
      { delays := [2000, 3000], outcome := Except.error e3 } := by
    rw [fetchWithRetry_of_error_retry backend 1 1 e1 he1 (by norm_num [maxRetries]) hr1, h2]
    norm_num [retryDelay]
  have h0 : fetchWithRetry backend 0 0 =
      { delays := [1000, 2000, 3000], outcome := Except.error e3 } := by
    rw [fetchWithRetry_of_error_retry backend 0 0 e0 he0 (by norm_num [maxRetries]) hr0, h1]
    norm_num [retryDelay]
  refine ⟨?_, ⟨e3, he3, ?_⟩, ?_⟩
  · rw [getPortfolioByQuarterRun, h0]
  · rw [getPortfolioByQuarterRun, h0]
  · intro r0
    calc (getPortfolioByQuarterRun backend r0).delays.length
        ≤ maxRetries - r0 :=
          fetchWithRetry_delays_length_le backend maxRetries 0 r0 (Nat.sub_le _ _)
      _ ≤ maxRetries := Nat.sub_le _ _

/-- Witness for `c2_retry_linear_backoff` against a concrete backend whose
every attempt fails with message `"connection lost"`. -/
theorem c2_retry_linear_backoff_witness :
    (getPortfolioByQuarterRun
      (fun _ => Except.error { message := "connection lost" }) 0).delays =
      [1000, 2000, 3000] :=
  (c2_retry_linear_backoff (fun _ => Except.error { message := "connection lost" })
    (fun _ => ⟨{ message := "connection lost" }, rfl, by decide⟩)).1

/-- C3: the retry gate is exactly the substring check. An error whose
message contains neither `"connection"` nor `"network"` is thrown
immediately, with no retry and no delay, whatever the current counter; and
conversely, whenever any run performs a retry, the first attempt's error
message contained one of the two substrings. -/
theorem c3_retry_gate (backend : Nat → Except PgError (Option (List Row))) (e : PgError)
    (h0 : backend 0 = Except.error e)
    (hnc : containsSubstring e.message "connection" = false)
    (hnn : containsSubstring e.message "network" = false) :
    (∀ r0, getPortfolioByQuarterRun backend r0 =
      { delays := [], outcome := Except.error e }) ∧
    (∀ b : Nat → Except PgError (Option (List Row)), ∀ r0,
      (getPortfolioByQuarterRun b r0).delays ≠ [] →
      ∃ e₁, b 0 = Except.error e₁ ∧
        (containsSubstring e₁.message "connection" = true ∨
         containsSubstring e₁.message "network" = true)) := by
  have hng : isRetryableError e = false := by
    simp [isRetryableError, hnc, hnn]
  constructor
  · intro r0
    exact fetchWithRetry_of_error_throw backend 0 r0 e h0
      (fun hc => by simp [hng] at hc)
  · intro b r0 hne
    rw [getPortfolioByQuarterRun] at hne
    cases hb : b 0 with
    | ok d => rw [fetchWithRetry_of_ok b 0 r0 d hb] at hne; simp at hne
    | error e₁ =>
      by_cases hc : r0 < maxRetries ∧ isRetryableError e₁ = true
      · refine ⟨e₁, rfl, ?_⟩
        have hg := hc.2
        simpa [isRetryableError, Bool.or_eq_true] using hg
      · rw [fetchWithRetry_of_error_throw b 0 r0 e₁ hb hc] at hne
        simp at hne

/-- Witness for `c3_retry_gate`: a `"permission denied"` error is thrown
at once with no retry. -/
theorem c3_retry_gate_witness :
    getPortfolioByQuarterRun
      (fun _ => Except.error { message := "permission denied" }) 0 =
      { delays := [], outcome := Except.error { message := "permission denied" } } :=
  (c3_retry_gate (fun _ => Except.error { message := "permission denied" })
    { message := "permission denied" } rfl (by decide) (by decide)).1 0

/-- C6: no remote failure is silently swallowed. Each data operation
returns (throws) the backend's error: `getPortfolioByQuarter` once all its
attempts fail (retry gate inapplicable or exhausted), `getLatestPortfolio`
on a first-stage error and on a second-stage fetch error, and
`getQuartersSummary`, `addConstituent`, `updateConstituent`,
`deleteConstituent`, `bulkInsertConstituents`, `searchConstituents` on
their single call's error. -/
theorem c6_error_propagation :
    (∀ backend r0, (∀ n, ∃ e, backend n = Except.error e) →
      ∃ e, (getPortfolioByQuarterRun backend r0).outcome = Except.error e) ∧
    (∀ (e : PgError) fq, getLatestPortfolio (Except.error e) fq = Except.error e) ∧
    (∀ (e : PgError) d q rest fq, d.getD [] = q :: rest → fq q = Except.error e →
      getLatestPortfolio (Except.ok d) fq = Except.error e) ∧
    (∀ e : PgError, getQuartersSummary (Except.error e) = Except.error e) ∧
    (∀ e : PgError, addConstituent (Except.error e) = Except.error e) ∧
    (∀ e : PgError, updateConstituent (Except.error e) = Except.error e) ∧
    (∀ e : PgError, deleteConstituent (Except.error e) = Except.error e) ∧
    (∀ e : PgError, bulkInsertConstituents (Except.error e) = Except.error e) ∧
    (∀ e : PgError, searchConstituents (Except.error e) = Except.error e) := by
  refine ⟨?_, fun e fq => rfl, ?_, fun e => rfl, fun e => rfl, fun e => rfl,
    fun e => rfl, fun e => rfl, fun e => rfl⟩
  · intro backend r0 hfail
    exact fetchWithRetry_all_error backend hfail maxRetries 0 r0 (Nat.sub_le _ _)
  · intro e d q rest fq hd hfq
    simp [getLatestPortfolio, hd, hfq]

/-- Witness for `c6_error_propagation` at concrete errors and backends. -/
theorem c6_error_propagation_witness :
    (∃ e, (getPortfolioByQuarterRun
      (fun _ => Except.error { message := "boom" }) 0).outcome = Except.error e) ∧
    getLatestPortfolio (Except.error { message := "boom" })
      (fun _ => Except.ok []) = Except.error { message := "boom" } ∧
    getLatestPortfolio (Except.ok (some ["Q1 2024"]))
      (fun _ => Except.error { message := "boom" }) = Except.error { message := "boom" } ∧
    getQuartersSummary (Except.error { message := "boom" }) =
      Except.error { message := "boom" } ∧
    addConstituent (Except.error { message := "boom" }) =
      Except.error { message := "boom" } ∧
    updateConstituent (Except.error { message := "boom" }) =
      Except.error { message := "boom" } ∧
    deleteConstituent (Except.error { message := "boom" }) =
      Except.error { message := "boom" } ∧
    bulkInsertConstituents (Except.error { message := "boom" }) =
      Except.error { message := "boom" } ∧
    searchConstituents (Except.error { message := "boom" }) =
      Except.error { message := "boom" } :=
  ⟨c6_error_propagation.1 (fun _ => Except.error { message := "boom" }) 0
      (fun _ => ⟨{ message := "boom" }, rfl⟩),
   c6_error_propagation.2.1 { message := "boom" } (fun _ => Except.ok []),
   c6_error_propagation.2.2.1 { message := "boom" } (some ["Q1 2024"]) "Q1 2024" []
      (fun _ => Except.error { message := "boom" }) rfl rfl,
   c6_error_propagation.2.2.2.1 { message := "boom" },
   c6_error_propagation.2.2.2.2.1 { message := "boom" },
   c6_error_propagation.2.2.2.2.2.1 { message := "boom" },
   c6_error_propagation.2.2.2.2.2.2.1 { message := "boom" },
   c6_error_propagation.2.2.2.2.2.2.2.1 { message := "boom" },
   c6_error_propagation.2.2.2.2.2.2.2.2 { message := "boom" }⟩

/-- `Set.add` never empties the subscriber set. -/
theorem setAdd_ne_nil (s : List Nat) (x : Nat) : setAdd s x ≠ [] := by
  unfold setAdd
  split
  · rename_i hx
    intro h
    rw [h] at hx
    exact List.not_mem_nil x hx
  · simp

/-- Every event preserves the channel invariant. -/
theorem channelStep_invariant (st : ChannelState) (a : ChannelAction)
    (h : channelInvariant st) : channelInvariant (channelStep st a) := by
  obtain ⟨ch, subs, nid, oc⟩ := st
  cases a with
  | subscribe cb =>
    cases ch with
    | some c =>
      simp only [channelStep, channelInvariant] at h ⊢
      exact ⟨h.1, setAdd_ne_nil _ _⟩
    | none =>
      simp only [channelStep, channelInvariant] at h ⊢
      subst h
      exact ⟨rfl, setAdd_ne_nil _ _⟩
  | unsubscribe cb =>
    cases ch with
    | some c =>
      simp only [channelStep, channelInvariant] at h ⊢
      split_ifs with hd
      · simp only [channelInvariant]
        rw [h.1]
        simp
      · simp only [channelInvariant]
        exact ⟨h.1, hd⟩
    | none =>
      simp only [channelStep, channelInvariant] at h ⊢
      split_ifs with hd <;> simpa [channelInvariant] using h
  | channelError =>
    cases ch with
    | some c =>
      simp only [channelStep, channelInvariant] at h ⊢
      rw [h.1]
      simp
    | none =>
      simpa only [channelStep, channelInvariant] using h

/-- The invariant holds after any run from the initial state. -/
theorem runChannel_invariant_aux :
    ∀ (acts : List ChannelAction) (st : ChannelState), channelInvariant st →
      channelInvariant (acts.foldl channelStep st) := by
  intro acts
  induction acts with
  | nil => intro st h; exact h
  | cons a rest ih =>
    intro st h
    exact ih (channelStep st a) (channelStep_invariant st a h)

/-- C9: the real-time channel lifecycle. From the singleton's initial state,
every event sequence keeps the invariant: at most one live channel (none
when the field is null, exactly the field's channel otherwise) and a
non-null channel only while the subscriber set is non-empty. Moreover each
unsubscribe closure removes exactly its own callback from the subscriber
set, and a subscribe call never creates a channel while one exists. -/
theorem c9_channel_lifecycle :
    (∀ acts : List ChannelAction, channelInvariant (runChannel acts)) ∧
    (∀ st cb, (channelStep st (ChannelAction.unsubscribe cb)).subscribers =
      st.subscribers.filter fun y => decide (y ≠ cb)) ∧
    (∀ st cb c, st.realtimeChannel = some c →
      (channelStep st (ChannelAction.subscribe cb)).realtimeChannel = some c ∧
      (channelStep st (ChannelAction.subscribe cb)).openChannels = st.openChannels) := by
  refine ⟨?_, ?_, ?_⟩
  · intro acts
    exact runChannel_invariant_aux acts channelInit (by decide)
  · intro st cb
    dsimp only [channelStep]
    split
    · cases st.realtimeChannel <;> rfl
    · rfl
  · intro st cb c hch
    dsimp only [channelStep]
    rw [hch]
    exact ⟨rfl, rfl⟩

/-- Witness for `c9_channel_lifecycle`: a subscribe/unsubscribe round trip
from the initial state, and a subscribe while channel `5` is live. -/
theorem c9_channel_lifecycle_witness :
    channelInvariant (runChannel [ChannelAction.subscribe 0, ChannelAction.unsubscribe 0]) ∧
    (channelStep
      { realtimeChannel := some 5, subscribers := [1], nextChannelId := 6,
        openChannels := [5] }
      (ChannelAction.subscribe 2)).realtimeChannel = some 5 :=
  ⟨c9_channel_lifecycle.1 [ChannelAction.subscribe 0, ChannelAction.unsubscribe 0],
   (c9_channel_lifecycle.2.2
      { realtimeChannel := some 5, subscribers := [1], nextChannelId := 6,
        openChannels := [5] } 2 5 rfl).1⟩

/-- Reading the map after a `set`. -/
theorem mapGet_mapSet (m : List (String × QuarterAgg)) (k : String) (v : QuarterAgg)
    (q : String) :
    mapGet (mapSet m k v) q = if k = q then some v else mapGet m q := by
  induction m with
  | nil => simp [mapSet, mapGet]
  | cons hd tl ih =>
    obtain ⟨k₁, v₁⟩ := hd
    by_cases h₁ : k₁ = k
    · subst h₁
      simp only [mapSet, if_pos rfl, mapGet]
      by_cases h₂ : k₁ = q <;> simp [mapGet, h₂]
    · simp only [mapSet, if_neg h₁, mapGet]
      by_cases h₂ : k₁ = q
      · subst h₂
        have hne : ¬(k = k₁) := fun hc => h₁ hc.symm
        simp [hne]
      · simp [h₂, ih]

/-- `mapGet` misses exactly the keys absent from the map. -/
theorem mapGet_eq_none_iff (m : List (String × QuarterAgg)) (q : String) :
    mapGet m q = none ↔ q ∉ m.map Prod.fst := by
  induction m with
  | nil => simp [mapGet]
  | cons hd tl ih =>
    obtain ⟨k₁, v₁⟩ := hd
    simp only [mapGet, List.map_cons, List.mem_cons]
    by_cases h : k₁ = q
    · subst h; simp
    · simp [h, ih, Ne.symm h]

/-- A successful `mapGet` exhibits a map entry. -/
theorem mem_of_mapGet_eq_some (m : List (String × QuarterAgg)) (q : String)
    (v : QuarterAgg) (h : mapGet m q = some v) : (q, v) ∈ m := by
  induction m with
  | nil => simp [mapGet] at h
  | cons hd tl ih =>
    obtain ⟨k₁, v₁⟩ := hd
    simp only [mapGet] at h
    by_cases hk : k₁ = q
    · subst hk
      rw [if_pos rfl] at h
      injection h with h
      subst h
      exact List.mem_cons_self _ _
    · rw [if_neg hk] at h
      exact List.mem_cons_of_mem _ (ih h)

/-- On a duplicate-free map, an entry determines the `mapGet` result. -/
theorem mapGet_eq_of_mem (m : List (String × QuarterAgg)) (q : String) (v : QuarterAgg)
    (hnd : (m.map Prod.fst).Nodup) (hm : (q, v) ∈ m) : mapGet m q = some v := by
  induction m with
  | nil => simp at hm
  | cons hd tl ih =>
    obtain ⟨k₁, v₁⟩ := hd
    simp only [List.map_cons, List.nodup_cons] at hnd
    rcases List.mem_cons.1 hm with heq | hmem
    · rw [Prod.mk.injEq] at heq
      obtain ⟨rfl, rfl⟩ := heq
      simp [mapGet]
    · have hq : q ∈ tl.map Prod.fst := List.mem_map_of_mem Prod.fst hmem
      have hk : ¬(k₁ = q) := fun h => hnd.1 (h ▸ hq)
      simp only [mapGet, if_neg hk]
      exact ih hnd.2 hmem

/-- `mapSet` keeps the key list, appending the key only when it is new. -/
theorem mapSet_keys (m : List (String × QuarterAgg)) (k : String) (v : QuarterAgg) :
    (mapSet m k v).map Prod.fst =
      if k ∈ m.map Prod.fst then m.map Prod.fst else m.map Prod.fst ++ [k] := by
  induction m with
  | nil => simp [mapSet]
  | cons hd tl ih =>
    obtain ⟨k₁, v₁⟩ := hd
    by_cases h₁ : k₁ = k
    · subst h₁
      simp [mapSet]
    · simp only [mapSet, if_neg h₁, List.map_cons, List.mem_cons, ih]
      by_cases h₂ : k ∈ tl.map Prod.fst
      · simp [h₂, Ne.symm h₁]
      · simp [h₂, Ne.symm h₁]

/-- One `forEach` step keeps the grouping map duplicate-free. -/
theorem quarterStep_keys_nodup (m : List (String × QuarterAgg)) (r : Row)
    (h : (m.map Prod.fst).Nodup) : ((quarterStep m r).map Prod.fst).Nodup := by
  unfold quarterStep
  rw [mapSet_keys]
  split_ifs with hmem
  · exact h
  · simp [List.nodup_append, h, hmem]

/-- The grouping map built by `getQuartersSummary` is duplicate-free: one
entry per distinct quarter label. -/
theorem buildQuarterMap_keys_nodup (rows : List Row) :
    ((buildQuarterMap rows).map Prod.fst).Nodup := by
  suffices h : ∀ m : List (String × QuarterAgg), (m.map Prod.fst).Nodup →
      ((rows.foldl quarterStep m).map Prod.fst).Nodup by
    exact h [] (by simp)
  induction rows with
  | nil => intro m hm; exact hm
  | cons r rest ih =>
    intro m hm
    exact ih (quarterStep m r) (quarterStep_keys_nodup m r hm)

/-- Accumulating rows on top of an existing entry adds the count, summed
returns and summed weights of the rows carrying that quarter. -/
theorem foldl_quarterStep_some (rows : List Row) :
    ∀ (m : List (String × QuarterAgg)) (q : String) (a : QuarterAgg),
      mapGet m q = some a →
      mapGet (rows.foldl quarterStep m) q =
        some { total_stocks := a.total_stocks + (rowsOfQuarter rows q).length
               total_returns := a.total_returns + sumReturns (rowsOfQuarter rows q)
               total_weight := a.total_weight + sumWeights (rowsOfQuarter rows q) } := by
  induction rows with
  | nil =>
    intro m q a h
    simp [rowsOfQuarter, sumReturns, sumWeights, h]
  | cons r rest ih =>
    intro m q a h
    simp only [List.foldl_cons]
    by_cases hq : r.quarter = q
    · have hget : mapGet m r.quarter = some a := by rw [hq]; exact h
      have hstep : mapGet (quarterStep m r) q =
          some { total_stocks := a.total_stocks + 1
                 total_returns := a.total_returns + r.quarterly_returns
                 total_weight := a.total_weight + r.weight } := by
        unfold quarterStep
        rw [hget]
        dsimp only [Option.getD]
        rw [mapGet_mapSet, if_pos hq]
      rw [ih (quarterStep m r) q _ hstep]
      have hfil : rowsOfQuarter (r :: rest) q = r :: rowsOfQuarter rest q := by
        simp [rowsOfQuarter, hq]
      rw [hfil]
      simp only [Option.some.injEq, QuarterAgg.mk.injEq, List.length_cons,
        sumReturns, sumWeights, List.map_cons, List.sum_cons]
      refine ⟨by omega, by ring, by ring⟩
    · have hstep : mapGet (quarterStep m r) q = some a := by
        unfold quarterStep
        rw [mapGet_mapSet, if_neg hq]
        exact h
      rw [ih (quarterStep m r) q a hstep]
      have hfil : rowsOfQuarter (r :: rest) q = rowsOfQuarter rest q := by
        simp [rowsOfQuarter, hq]
      rw [hfil]

/-- Starting from no entry, the grouping map holds, for each quarter that
occurs, exactly the count, summed returns and summed weights of the rows
carrying it — and no entry for a quarter that does not occur. -/
theorem foldl_quarterStep_none (rows : List Row) :
    ∀ (m : List (String × QuarterAgg)) (q : String),
      mapGet m q = none →
      mapGet (rows.foldl quarterStep m) q =
        if rowsOfQuarter rows q = [] then none
        else some { total_stocks := (rowsOfQuarter rows q).length
                    total_returns := sumReturns (rowsOfQuarter rows q)
                    total_weight := sumWeights (rowsOfQuarter rows q) } := by
  induction rows with
  | nil =>
    intro m q h
    simp [rowsOfQuarter, h]
  | cons r rest ih =>
    intro m q h
    simp only [List.foldl_cons]
    by_cases hq : r.quarter = q
    · have hget : mapGet m r.quarter = none := by rw [hq]; exact h
      have hstep : mapGet (quarterStep m r) q =
          some { total_stocks := 1
                 total_returns := 0 + r.quarterly_returns
                 total_weight := 0 + r.weight } := by
        unfold quarterStep
        rw [hget]
        dsimp only [Option.getD]
        rw [mapGet_mapSet, if_pos hq]
      rw [foldl_quarterStep_some rest (quarterStep m r) q _ hstep]
      have hfil : rowsOfQuarter (r :: rest) q = r :: rowsOfQuarter rest q := by
        simp [rowsOfQuarter, hq]
      rw [hfil, if_neg (by simp)]
      simp only [Option.some.injEq, QuarterAgg.mk.injEq, List.length_cons,
        sumReturns, sumWeights, List.map_cons, List.sum_cons]
      refine ⟨by omega, by ring, by ring⟩
    · have hstep : mapGet (quarterStep m r) q = none := by
        unfold quarterStep
        rw [mapGet_mapSet, if_neg hq]
        exact h
      rw [ih (quarterStep m r) q hstep]
      have hfil : rowsOfQuarter (r :: rest) q = rowsOfQuarter rest q := by
        simp [rowsOfQuarter, hq]
      rw [hfil]

/-- C10: every quarter key present in the grouping map has `total_stocks`
at least 1, so `avg_returns = total_returns / total_stocks` never divides
by zero, for any input row list. -/
theorem c10_avg_denominator_positive (rows : List Row) (q : String) (a : QuarterAgg)
    (h : mapGet (buildQuarterMap rows) q = some a) : 1 ≤ a.total_stocks := by
  rw [buildQuarterMap, foldl_quarterStep_none rows [] q rfl] at h
  by_cases hfil : rowsOfQuarter rows q = []
  · rw [if_pos hfil] at h
    exact absurd h (by simp)
  · rw [if_neg hfil] at h
    have ha := Option.some.inj h
    rw [← ha]
    exact List.length_pos.2 hfil

/-- Witness for `c10_avg_denominator_positive` on a one-row table. -/
theorem c10_avg_denominator_positive_witness :
    mapGet (buildQuarterMap [sampleRow]) "Q1 2024" =
      some { total_stocks := 1, total_returns := 5, total_weight := 10 } ∧
    1 ≤ ({ total_stocks := 1, total_returns := 5, total_weight := 10 } : QuarterAgg).total_stocks :=
  ⟨by simp [buildQuarterMap, quarterStep, mapGet, mapSet, sampleRow],
   c10_avg_denominator_positive [sampleRow] "Q1 2024"
     { total_stocks := 1, total_returns := 5, total_weight := 10 }
     (by simp [buildQuarterMap, quarterStep, mapGet, mapSet, sampleRow])⟩

/-- C1: for every input row list and every quarter label occurring in it,
`getQuartersSummary` returns exactly one summary carrying that label, whose
`total_stocks` is the number of input rows with that quarter, whose
`total_weight` is the sum of their weights, and whose `avg_returns` is the
sum of their quarterly returns divided by that count; and it returns no
summary for a label that occurs in no row. -/
theorem c1_quarters_summary (rows : List Row) (q : String)
    (hq : q ∈ rows.map Row.quarter) :
    (∃ s, s ∈ quartersSummaryOfData rows ∧ s.quarter = q ∧
      s.total_stocks = (rowsOfQuarter rows q).length ∧
      s.total_weight = sumWeights (rowsOfQuarter rows q) ∧
      s.avg_returns = sumReturns (rowsOfQuarter rows q) /
        ((rowsOfQuarter rows q).length : ℚ) ∧
      (∀ s₂, s₂ ∈ quartersSummaryOfData rows → s₂.quarter = q → s₂ = s)) ∧
    (∀ s₂, s₂ ∈ quartersSummaryOfData rows → s₂.quarter ∈ rows.map Row.quarter) := by
  have hrows : ¬(rows = []) := by
    rintro rfl
    simp at hq
  have hsum : quartersSummaryOfData rows = summariesOfMap (buildQuarterMap rows) := by
    unfold quartersSummaryOfData
    rw [if_neg hrows]
  obtain ⟨r, hr, hrq⟩ := List.mem_map.1 hq
  have hfil : ¬(rowsOfQuarter rows q = []) := by
    have hrmem : r ∈ rowsOfQuarter rows q := by
      simp [rowsOfQuarter, hr, hrq]
    exact List.ne_nil_of_mem hrmem
  have hmap : mapGet (buildQuarterMap rows) q =
      some { total_stocks := (rowsOfQuarter rows q).length
             total_returns := sumReturns (rowsOfQuarter rows q)
             total_weight := sumWeights (rowsOfQuarter rows q) } := by
    rw [buildQuarterMap, foldl_quarterStep_none rows [] q rfl, if_neg hfil]
  have hmem : ((q, { total_stocks := (rowsOfQuarter rows q).length
                     total_returns := sumReturns (rowsOfQuarter rows q)
                     total_weight := sumWeights (rowsOfQuarter rows q) }) :
      String × QuarterAgg) ∈ buildQuarterMap rows :=
    mem_of_mapGet_eq_some _ _ _ hmap
  have hnd := buildQuarterMap_keys_nodup rows
  constructor
  · refine ⟨{ quarter := q
              total_stocks := (rowsOfQuarter rows q).length
              avg_returns := sumReturns (rowsOfQuarter rows q) /
                ((rowsOfQuarter rows q).length : ℚ)
              total_weight := sumWeights (rowsOfQuarter rows q) },
      ?_, rfl, rfl, rfl, rfl, ?_⟩
    · rw [hsum]
      exact List.mem_map_of_mem _ hmem
    · intro s₂ hs₂ hq₂
      rw [hsum] at hs₂
      obtain ⟨⟨p1, p2⟩, hp, heq⟩ := List.mem_map.1 hs₂
      have hp1 : p1 = q := by
        rw [← heq] at hq₂
        exact hq₂
      subst hp1
      have hpget : mapGet (buildQuarterMap rows) p1 = some p2 :=
        mapGet_eq_of_mem _ _ _ hnd hp
      rw [hmap] at hpget
      have hp2 := Option.some.inj hpget
      rw [← heq, ← hp2]
  · intro s₂ hs₂
    rw [hsum] at hs₂
    obtain ⟨⟨p1, p2⟩, hp, heq⟩ := List.mem_map.1 hs₂
    have hget : mapGet (buildQuarterMap rows) p1 = some p2 :=
      mapGet_eq_of_mem _ _ _ hnd hp
    by_contra hnot
    have hq2 : s₂.quarter = p1 := by rw [← heq]
    rw [hq2] at hnot
    have hfil0 : rowsOfQuarter rows p1 = [] := by
      rw [rowsOfQuarter, List.filter_eq_nil_iff]
      intro r₁ hr₁
      simp only [decide_eq_true_eq]
      intro hc
      exact hnot (List.mem_map.2 ⟨r₁, hr₁, hc⟩)
    have hnone : mapGet (buildQuarterMap rows) p1 = none := by
      rw [buildQuarterMap, foldl_quarterStep_none rows [] p1 rfl, if_pos hfil0]
    rw [hnone] at hget
    exact absurd hget (by simp)

/-- Witness for `c1_quarters_summary` on a one-row table. -/
theorem c1_quarters_summary_witness :
    (∃ s, s ∈ quartersSummaryOfData [sampleRow] ∧ s.quarter = "Q1 2024" ∧
      s.total_stocks = (rowsOfQuarter [sampleRow] "Q1 2024").length ∧
      s.total_weight = sumWeights (rowsOfQuarter [sampleRow] "Q1 2024") ∧
      s.avg_returns = sumReturns (rowsOfQuarter [sampleRow] "Q1 2024") /
        ((rowsOfQuarter [sampleRow] "Q1 2024").length : ℚ) ∧
      (∀ s₂, s₂ ∈ quartersSummaryOfData [sampleRow] → s₂.quarter = "Q1 2024" → s₂ = s)) ∧
    (∀ s₂, s₂ ∈ quartersSummaryOfData [sampleRow] →
      s₂.quarter ∈ [sampleRow].map Row.quarter) :=
  c1_quarters_summary [sampleRow] "Q1 2024" (by simp [sampleRow])

/-- Descending insertion preserves membership. -/
theorem mem_insertDescByWeight (r x : Row) (l : List Row) :
    x ∈ insertDescByWeight r l ↔ x = r ∨ x ∈ l := by
  induction l with
  | nil => simp [insertDescByWeight]
  | cons hd tl ih =>
    simp only [insertDescByWeight]
    split_ifs with hlt
    · simp [List.mem_cons]
    · simp only [List.mem_cons, ih]
      tauto

/-- The weight ordering only rearranges the query's rows. -/
theorem mem_sortDescByWeight (x : Row) (l : List Row) :
    x ∈ sortDescByWeight l ↔ x ∈ l := by
  induction l with
  | nil => simp [sortDescByWeight]
  | cons hd tl ih =>
    simp only [sortDescByWeight, List.foldr_cons] at ih ⊢
    rw [mem_insertDescByWeight]
    simp [ih]

/-- `getPortfolioByQuarter`'s query returns exactly the table rows carrying
the requested quarter. -/
theorem mem_queryByQuarter (db : List Row) (q : String) (r : Row) :
    r ∈ queryByQuarter db q ↔ r ∈ db ∧ r.quarter = q := by
  unfold queryByQuarter
  rw [mem_sortDescByWeight]
  simp [List.mem_filter]

/-- C7: on every real-time notification the handler refetches the complete
current list — the subscribed quarter's rows, or the latest quarter's rows
when no quarter was given — and each subscriber's local state is replaced
wholesale by the fetched list, independent of the previous state. -/
theorem c7_realtime_replacement (db prev : List Row) (q : String) :
    (∀ quarter, applySubscriberUpdate prev (realtimeRefetch db quarter) =
      realtimeRefetch db quarter) ∧
    (∀ quarter prev₂, applySubscriberUpdate prev₂ (realtimeRefetch db quarter) =
      applySubscriberUpdate prev (realtimeRefetch db quarter)) ∧
    (∀ r, r ∈ realtimeRefetch db (some q) ↔ r ∈ db ∧ r.quarter = q) ∧
    (∀ r, r ∈ realtimeRefetch db none ↔ r ∈ db ∧ some r.quarter = latestQuarter db) := by
  refine ⟨fun quarter => rfl, fun quarter prev₂ => rfl, fun r => ?_, fun r => ?_⟩
  · exact mem_queryByQuarter db q r
  · show r ∈ getLatestPortfolioDb db ↔ _
    unfold getLatestPortfolioDb
    cases hl : latestQuarter db with
    | none => simp [hl]
    | some q0 =>
      rw [mem_queryByQuarter]
      simp [hl]

/-- C8: when the latest-quarter query comes back empty — no rows, or a
`null` data payload, or an empty table — `getLatestPortfolio` returns the
empty list as a success, not an error. -/
theorem c8_latest_portfolio_empty :
    (∀ fq, getLatestPortfolio (Except.ok (some [])) fq = Except.ok []) ∧
    (∀ fq, getLatestPortfolio (Except.ok none) fq = Except.ok []) ∧
    getLatestPortfolioDb [] = [] :=
  ⟨fun _fq => rfl, fun _fq => rfl, rfl⟩

end StockPicker
